import Mathlib

/-!
Shallow embedding of the two pipelines in this repository.

Challenge 1 (`src/challenge-1/challenge.ts`): download a dump archive,
extract it, create the SQLite schema and batch-load two CSVs.
Challenge 2 (`src/challenge-2/challenge.ts`): parse a CSV of companies,
scrape each company page concurrently and write a JSON array.

External collaborators (the HTTP client, the tar/gzip codec, the CSV codec,
cheerio and knex) are modelled as abstract inputs: a download is a response
event, a page is the record of texts the selectors would return, an insert
outcome is a boolean.  The event-loop scheduling that the promise code
depends on (which settlement happens before which event) is passed in
explicitly where a claim depends on it.
-/

/-! ## Challenge 1: downloadFile -/

/-- Outcome of the single `https.get` of `downloadFile`: either a response
with a status code and the body bytes that get piped to the file, or a
transport failure (the request `error` event) after `written` bytes reached
the write stream. -/
inductive HttpsEvent where
  | response (statusCode : Nat) (body : List Nat)
  | transportFailure (written : List Nat)
deriving Repr, DecidableEq

/-- How the promise returned by `downloadFile` settles. -/
inductive DlResult where
  | success
  | httpError (code : Nat)
  | networkError
  | unlinkError
  | closeError
deriving Repr, DecidableEq

/-- State of the destination path after `downloadFile` ran. -/
inductive FileState where
  | present (bytes : List Nat)
  | deleted
deriving Repr, DecidableEq

structure DlOutcome where
  result : DlResult
  file : FileState
deriving Repr, DecidableEq

/-- Embedding of `downloadFile` (challenge-1, lines 22-62).  The write stream
is created first, so the destination file exists (empty) in every branch.
On a non-200 status the promise rejects and nothing touches the file.  On
success the body is piped and `file.close` may fail.  On a transport error
the destination is unlinked: if the unlink itself fails the promise rejects
with the unlink error, otherwise with the original network error. -/
def downloadFile (ev : HttpsEvent) (closeFails unlinkFails : Bool) : DlOutcome :=
  match ev with
  | .response code body =>
      if code ≠ 200 then
        { result := .httpError code, file := .present [] }
      else if closeFails then
        { result := .closeError, file := .present body }
      else
        { result := .success, file := .present body }
  | .transportFailure written =>
      if unlinkFails then
        { result := .unlinkError, file := .present written }
      else
        { result := .networkError, file := .deleted }

/-! ## Challenge 1: processDataDump stage order -/

/-- The stages `processDataDump` (challenge-1, lines 144-182) can invoke. -/
inductive StepKind where
  | extractTarGz
  | readdir
  | downloadStep
  | setupDatabase
  | loadCustomers
  | loadOrganizations
  | destroyDb
deriving Repr, DecidableEq

/-- The awaited calls of `processDataDump`, in source order: the body first
extracts `tmp/dump.tar.gz` (line 151) and lists the directory, then
downloads the archive (line 157), extracts it again (line 163), sets up the
database and loads the two tables. -/
def dumpSteps : List StepKind :=
  [.extractTarGz, .readdir, .downloadStep, .extractTarGz,
   .setupDatabase, .loadCustomers, .loadOrganizations, .destroyDb]

/-- Run a list of sequential awaited steps where `fails i` says whether the
i-th call rejects; the surrounding try/catch stops the body at the first
failure.  Returns the calls that actually ran (the failing one included). -/
def runSeq (fails : Nat → Bool) (i : Nat) : List StepKind → List StepKind
  | [] => []
  | s :: rest => if fails i then [s] else s :: runSeq fails (i + 1) rest

/-- Embedding of `processDataDump`: the trace of stage calls it performs
given which calls fail. -/
def processDataDump (fails : Nat → Bool) : List StepKind :=
  runSeq fails 0 dumpSteps

/-! ## Challenge 1: processCSV batching -/

/-- The batches `processCSV` (challenge-1, lines 113-141) hands to
`db(tableName).insert`: the `data` handler pushes each row and flushes the
buffer whenever it reaches 100 rows; the `end` handler inserts whatever
remains, if nonempty. -/
def insertBatches (buf : List α) : List α → List (List α)
  | [] => if buf.length > 0 then [buf] else []
  | r :: rest =>
      let b := buf ++ [r]
      if b.length = 100 then b :: insertBatches [] rest
      else insertBatches b rest

/-- Whether the promise returned by `processCSV` resolves or rejects. -/
inductive PResult where
  | resolved
  | rejected
deriving Repr, DecidableEq

/-- The observable effects of one `processCSV` run. -/
structure CSVRun (α : Type) where
  insertCalls : List (List α)
  dbRows : List α
  outcome : PResult
deriving Repr, DecidableEq

/-- Of the issued batches, the ones issued from the `data` handler
(fire-and-forget `insert(...).catch(reject)`): all of them except a final
batch of fewer than 100 rows, which the `end` handler issues and awaits. -/
def unawaitedCount (batches : List (List α)) : Nat :=
  match batches.getLast? with
  | none => 0
  | some b => if b.length = 100 then batches.length else batches.length - 1

/-- Embedding of `processCSV`.  `insertOk i` tells whether the i-th insert
call succeeds at the store; `settlesBeforeEnd i` tells whether the i-th
(fire-and-forget) insert settles before the stream `end` event fires.  A
rejection of an unawaited insert reaches `reject` only if it settles before
`end`; the final partial batch is awaited inside the `end` handler, so its
rejection always lands before `resolve`.  Rows of every successful insert
are committed in issue order regardless of how the promise settles. -/
def processCSV (rows : List α) (insertOk settlesBeforeEnd : Nat → Bool) :
    CSVRun α :=
  let batches := insertBatches [] rows
  let unawaited := unawaitedCount batches
  let earlyReject :=
    (List.range unawaited).any fun i => !insertOk i && settlesBeforeEnd i
  let tailReject := unawaited < batches.length && !insertOk unawaited
  { insertCalls := batches
    dbRows :=
      ((batches.enum.filter fun p => insertOk p.1).map Prod.snd).flatten
    outcome := if earlyReject || tailReject then .rejected else .resolved }

/-- Sizes of the insert batches for n rows: full batches of 100 and one
remainder batch when n is not a multiple of 100. -/
def chunkSizes (n : Nat) : List Nat :=
  List.replicate (n / 100) 100 ++ if n % 100 = 0 then [] else [n % 100]

/-! ## Challenge 2: parseCSV -/

/-- JS value of `row["Company Name"]` etc.: a decoded row is a key-value
record and a missing key reads as `undefined`, i.e. `none`. -/
structure Company where
  name : Option String
  url : Option String
deriving Repr, DecidableEq

/-- Errors Pipeline A can reject with. -/
inductive AErr where
  | ioErr
  | parseErr
  | scrapeErr
deriving Repr, DecidableEq

/-- A data row padded on the right with empty strings up to the header
width: fast-csv's header transformer reads missing trailing fields as the
empty string. -/
def padRow (row : List String) (n : Nat) : List String :=
  row ++ List.replicate (n - row.length) ""

/-- fast-csv with `headers: true` and default options: a data row is
decoded against the header row of the file itself; a row with more columns
than the header row raises a column-mismatch stream error, while a row
with fewer columns is accepted with its missing trailing fields read as
empty strings. -/
def decodeRow (headers row : List String) : Option (List (String × String)) :=
  if headers.length < row.length then none
  else some (headers.zip (padRow row headers.length))

/-- Reading `record[key]` in JS: the value if the key is present,
`undefined` otherwise. -/
def fieldOf (record : List (String × String)) (key : String) : Option String :=
  (record.find? fun p => p.1 = key).map Prod.snd

/-- The `data` handler of `parseCSV` (challenge-2, line 43) on one decoded
row. -/
def toCompany (record : List (String × String)) : Company :=
  { name := fieldOf record "Company Name", url := fieldOf record "YC URL" }

/-- Decode the data rows in order; the first row that does not decode makes
the stream emit `error`, which rejects the promise. -/
def parseRows (headers : List String) :
    List (List String) → Except AErr (List Company)
  | [] => .ok []
  | row :: rest =>
      match decodeRow headers row with
      | none => .error .parseErr
      | some record =>
          match parseRows headers rest with
          | .error e => .error e
          | .ok cs => .ok (toCompany record :: cs)

/-- Embedding of `parseCSV` (challenge-2, lines 35-48).  The input is the
result of opening the file: an open failure surfaces as the stream `error`
event (an IO error); otherwise the raw grid of the file, whose first row is
taken as the header row by `headers: true`.  (Simplification: fast-csv also
rejects a header row containing duplicate names; header rows here are used
as given, which only differs on that degenerate corner.) -/
def parseCSV (file : Except Unit (List (List String))) :
    Except AErr (List Company) :=
  match file with
  | .error _ => .error .ioErr
  | .ok [] => .ok []
  | .ok (headers :: rows) => parseRows headers rows

/-! ## Challenge 2: scrapeCompanyPage -/

structure Founder where
  name : String
deriving Repr, DecidableEq

structure Job where
  title : String
  location : String
deriving Repr, DecidableEq

structure CompanyData where
  name : String
  founded : String
  description : String
  teamSize : Int
  jobs : List Job
  founders : List Founder
deriving Repr, DecidableEq

/-- A fetched page, as the cheerio selectors of the request handler see it:
`.text()` of each scalar selector (the empty string when the element is
missing) and the text contents of each `div.founder` / `div.job` block. -/
structure Page where
  companyNameText : String
  foundedText : String
  descriptionText : String
  teamSizeText : String
  founderBlocks : List String
  jobBlocks : List (String × String)
deriving Repr, DecidableEq

/-- JS `String.prototype.trim`: drop whitespace from both ends.  (Stated
over the character list so that it reduces by kernel computation.) -/
def trimChars (cs : List Char) : List Char :=
  ((cs.dropWhile Char.isWhitespace).reverse.dropWhile Char.isWhitespace).reverse

def jsTrim (s : String) : String :=
  String.mk (trimChars s.toList)

/-- JS `parseInt(s, 10)`: skip surrounding whitespace, read an optional
sign and then the longest digit prefix; `none` models `NaN` (no digits). -/
def digitsValue (cs : List Char) : Option Nat :=
  let ds := cs.takeWhile Char.isDigit
  if ds.isEmpty then none
  else some (ds.foldl (fun a c => a * 10 + (c.toNat - 48)) 0)

def parseIntChars : List Char → Option Int
  | [] => none
  | c :: rest =>
      if c = '-' then (digitsValue rest).map fun n => -(n : Int)
      else if c = '+' then (digitsValue rest).map fun n => (n : Int)
      else (digitsValue (c :: rest)).map fun n => (n : Int)

def parseIntJS (s : String) : Option Int :=
  parseIntChars (trimChars s.toList)

/-- JS `s || dflt` for strings: the empty string is falsy. -/
def jsOrString (s dflt : String) : String :=
  if s = "" then dflt else s

/-- JS `x || dflt` for `parseInt` results: `NaN` and `0` are falsy. -/
def jsOrInt (x : Option Int) (dflt : Int) : Int :=
  match x with
  | none => dflt
  | some n => if n = 0 then dflt else n

/-- The request handler of `scrapeCompanyPage` (challenge-2, lines 56-87):
scalar fields default via `|| "N/A"` / `|| 0`, a founder block contributes
iff its trimmed h3 text is nonempty, a job block contributes iff its
trimmed title or trimmed location is nonempty. -/
def requestHandler (p : Page) : CompanyData :=
  { name := jsOrString (jsTrim p.companyNameText) "N/A"
    founded := jsOrString (jsTrim p.foundedText) "N/A"
    description := jsOrString (jsTrim p.descriptionText) "N/A"
    teamSize := jsOrInt (parseIntJS p.teamSizeText) 0
    jobs := p.jobBlocks.filterMap fun b =>
      let title := jsTrim b.1
      let location := jsTrim b.2
      if title ≠ "" ∨ location ≠ "" then some { title, location } else none
    founders := p.founderBlocks.filterMap fun b =>
      let n := jsTrim b
      if n ≠ "" then some { name := n } else none }

/-- Embedding of `scrapeCompanyPage` (challenge-2, lines 51-94): fetching
the page may fail (crawler rejection), in which case the promise rejects;
otherwise the request handler extracts the profile. -/
def scrapeCompanyPage (fetchPage : Option String → Except Unit Page)
    (url : Option String) : Except Unit CompanyData :=
  match fetchPage url with
  | .error e => .error e
  | .ok p => .ok (requestHandler p)

/-! ## Challenge 2: processCompanyList -/

/-- `Promise.all`: resolves with all values, in input order, iff every
member resolves; rejects if any member rejects. -/
def promiseAll : List (Except Unit α) → Except Unit (List α)
  | [] => .ok []
  | x :: xs =>
      match x with
      | .error e => .error e
      | .ok a =>
          match promiseAll xs with
          | .error e => .error e
          | .ok as => .ok (a :: as)

/-- The only persistent state of Pipeline A: the output file
`out/scraped.json`, holding the serialized array when present. -/
structure WorldA where
  outFile : Option (List CompanyData)
deriving Repr, DecidableEq

/-- Embedding of `processCompanyList` (challenge-2, lines 104-113): parse
the CSV, scrape every company concurrently, await them all, and only then
write the JSON file.  Any rejection propagates and leaves the world (the
output file) untouched. -/
def processCompanyList (file : Except Unit (List (List String)))
    (fetchPage : Option String → Except Unit Page) (w : WorldA) :
    Except AErr Unit × WorldA :=
  match parseCSV file with
  | .error e => (.error e, w)
  | .ok companies =>
      match promiseAll (companies.map fun c => scrapeCompanyPage fetchPage c.url) with
      | .error _ => (.error .scrapeErr, w)
      | .ok ds => (.ok (), { outFile := some ds })

/-! ## Helper lemmas -/

theorem insertBatches_flatten {α : Type} (rows : List α) :
    ∀ buf : List α, (insertBatches buf rows).flatten = buf ++ rows := by
  induction rows with
  | nil =>
      intro buf
      by_cases h : buf.length > 0 <;> simp_all [insertBatches]
  | cons r rest ih =>
      intro buf
      by_cases h : buf.length = 99 <;>
        simp [insertBatches, h, ih]

theorem chunkSizes_hundred_add (m : Nat) :
    chunkSizes (100 + m) = 100 :: chunkSizes m := by
  unfold chunkSizes
  have hdiv : (100 + m) / 100 = m / 100 + 1 := by omega
  have hmod : (100 + m) % 100 = m % 100 := by omega
  rw [hdiv, hmod, List.replicate_succ]
  simp

theorem insertBatches_sizes {α : Type} (rows : List α) :
    ∀ buf : List α, buf.length < 100 →
      (insertBatches buf rows).map List.length
        = chunkSizes (buf.length + rows.length) := by
  induction rows with
  | nil =>
      intro buf hb
      by_cases h : buf.length > 0
      · have h1 : buf.length / 100 = 0 := Nat.div_eq_of_lt hb
        have h2 : buf.length % 100 = buf.length := Nat.mod_eq_of_lt hb
        have h3 : ¬ buf.length = 0 := by omega
        simp [insertBatches, chunkSizes, h, h1, h2, h3]
      · have hz : buf.length = 0 := by omega
        simp [insertBatches, chunkSizes, h, hz]
  | cons r rest ih =>
      intro buf hb
      by_cases h : buf.length = 99
      · have hb1 : buf.length + (r :: rest).length = 100 + rest.length := by
          simp [h]
          omega
        have hih : (insertBatches ([] : List α) rest).map List.length
            = chunkSizes rest.length := by simpa using ih [] (by simp)
        rw [hb1, chunkSizes_hundred_add]
        simp [insertBatches, h, hih]
      · have hlt : (buf ++ [r]).length < 100 := by simp; omega
        have hih := ih (buf ++ [r]) hlt
        have harith : (buf ++ [r]).length + rest.length
            = buf.length + (r :: rest).length := by simp; omega
        rw [show insertBatches buf (r :: rest) = insertBatches (buf ++ [r]) rest
              from by simp [insertBatches, h],
            hih, harith]

theorem parseRows_ok (headers : List String) (rows : List (List String))
    (h : ∀ r ∈ rows, r.length ≤ headers.length) :
    parseRows headers rows
      = .ok (rows.map fun r => toCompany (headers.zip (padRow r headers.length))) := by
  induction rows with
  | nil => simp [parseRows]
  | cons r rest ih =>
      have hr : r.length ≤ headers.length := h r (List.mem_cons_self r rest)
      have hrest := ih fun x hx => h x (List.mem_cons_of_mem r hx)
      simp [parseRows, decodeRow, Nat.not_lt.mpr hr, hrest]

theorem parseRows_error (headers : List String) (pre : List (List String))
    (bad : List String) (post : List (List String))
    (hpre : ∀ r ∈ pre, r.length ≤ headers.length)
    (hbad : headers.length < bad.length) :
    parseRows headers (pre ++ bad :: post) = .error .parseErr := by
  induction pre with
  | nil => simp [parseRows, decodeRow, hbad]
  | cons r rest ih =>
      have hr : r.length ≤ headers.length := hpre r (List.mem_cons_self r rest)
      have hrest := ih fun x hx => hpre x (List.mem_cons_of_mem r hx)
      simp [parseRows, decodeRow, Nat.not_lt.mpr hr, hrest]

theorem promiseAll_map_ok {α β : Type} (l : List β) (f : β → α) :
    promiseAll (l.map fun b => .ok (f b)) = .ok (l.map f) := by
  induction l with
  | nil => rfl
  | cons b rest ih => simp [promiseAll, ih]

theorem promiseAll_error_of_mem {α : Type} (l : List (Except Unit α))
    (h : .error () ∈ l) : promiseAll l = .error () := by
  induction l with
  | nil => simp at h
  | cons x xs ih =>
      rcases List.mem_cons.mp h with h1 | h2
      · subst h1; simp [promiseAll]
      · cases x with
        | error e => simp [promiseAll]
        | ok a => simp [promiseAll, ih h2]

/-! ## Claim theorems for challenge 1 -/

/-- C2: the claim says the archive download completes before any extraction
of the archive begins.  The code violates this: `processDataDump` invokes
`extractTarGz` (line 151) as its very first awaited call, before
`downloadFile` (line 157), so in the all-success trace an extraction
precedes the download, and in a fresh run where that first extraction fails
(the archive does not exist yet) the download is never reached at all. -/
theorem processDataDump_extract_precedes_download :
    processDataDump (fun _ => false) = dumpSteps ∧
    dumpSteps.take 3 = [.extractTarGz, .readdir, .downloadStep] ∧
    processDataDump (fun i => i == 0) = [.extractTarGz] ∧
    StepKind.downloadStep ∉ processDataDump (fun i => i == 0) := by
  refine ⟨rfl, rfl, rfl, ?_⟩
  decide

set_option maxRecDepth 8000 in
/-- C4: there is an execution of `processCSV` in which a non-final batch
insert is rejected by the store yet the returned promise resolves: with 101
rows the first batch (100 rows, fire-and-forget) fails; if its rejection
settles after the stream end event the run resolves and the 100 rows are
silently lost, while if it settles before the end event the run rejects. -/
theorem processCSV_lost_rejection :
    (processCSV (List.range 101) (fun i => i != 0) fun _ => false).outcome
        = .resolved ∧
    (fun i => i != 0 : Nat → Bool) 0 = false ∧
    ((processCSV (List.range 101) (fun i => i != 0) fun _ => false).insertCalls.map
        List.length) = [100, 1] ∧
    unawaitedCount
        (processCSV (List.range 101) (fun i => i != 0) fun _ => false).insertCalls
        = 1 ∧
    (processCSV (List.range 101) (fun i => i != 0) fun _ => false).dbRows.length
        = 1 ∧
    (processCSV (List.range 101) (fun i => i != 0) fun _ => true).outcome
        = .rejected := by
  refine ⟨rfl, rfl, ?_, ?_, ?_, ?_⟩ <;> decide

/-- C5: `downloadFile` rejects with an HTTP-status error on a non-200
status and leaves the destination file in place (created but empty); on a
transport error (with the unlink succeeding) it deletes the partial
destination file and rejects with the network error; and the file is
deleted only on a transport failure, never on a non-success status. -/
theorem downloadFile_error_handling
    (ev : HttpsEvent) (closeFails unlinkFails : Bool) :
    (∀ code body, ev = .response code body → code ≠ 200 →
      downloadFile ev closeFails unlinkFails
        = { result := .httpError code, file := .present [] }) ∧
    (∀ written, ev = .transportFailure written → unlinkFails = false →
      downloadFile ev closeFails unlinkFails
        = { result := .networkError, file := .deleted }) ∧
    ((downloadFile ev closeFails unlinkFails).file = .deleted →
      ∃ written, ev = .transportFailure written) := by
  refine ⟨?_, ?_, ?_⟩
  · rintro code body rfl hcode
    simp [downloadFile, hcode]
  · rintro written rfl hunlink
    simp [downloadFile, hunlink]
  · intro hdel
    cases ev with
    | response code body =>
        exfalso
        by_cases hc : code = 200 <;> by_cases hcf : closeFails = true <;>
          simp_all [downloadFile]
    | transportFailure written => exact ⟨written, rfl⟩

/-- C5 witness: a 404 response leaves the (empty) file and rejects with the
status error; a transport failure with a working unlink deletes the file
and rejects with the network error. -/
theorem downloadFile_error_handling_witness :
    downloadFile (.response 404 []) false false
      = { result := .httpError 404, file := .present [] } ∧
    downloadFile (.transportFailure [7, 7]) false false
      = { result := .networkError, file := .deleted } :=
  ⟨(downloadFile_error_handling (.response 404 []) false false).1 404 []
      rfl (by decide),
   (downloadFile_error_handling (.transportFailure [7, 7]) false false).2.1
      [7, 7] rfl rfl⟩

/-- C10: when the transport fails and the subsequent unlink of the partial
file also fails, `downloadFile` rejects with the unlink error rather than
the original network error (the original cause is masked), and the partial
file stays on disk. -/
theorem downloadFile_unlink_masks_cause (written : List Nat) (closeFails : Bool) :
    (downloadFile (.transportFailure written) closeFails true).result
        = .unlinkError ∧
    (downloadFile (.transportFailure written) closeFails true).result
        ≠ .networkError ∧
    (downloadFile (.transportFailure written) closeFails true).file
        = .present written := by
  refine ⟨rfl, ?_, rfl⟩
  simp [downloadFile]

/-- C3: on any input of exactly 250 rows with every insert accepted,
`processCSV` issues exactly three insert calls of sizes 100, 100 and 50
whose concatenation in order is the input, the table ends up holding
exactly those 250 rows with their values preserved, and the promise
resolves. -/
theorem processCSV_batches_250 {α : Type} (rows : List α)
    (insertOk settlesBeforeEnd : Nat → Bool)
    (h250 : rows.length = 250) (hok : ∀ i, insertOk i = true) :
    (processCSV rows insertOk settlesBeforeEnd).insertCalls.map List.length
        = [100, 100, 50] ∧
    (processCSV rows insertOk settlesBeforeEnd).insertCalls.flatten = rows ∧
    (processCSV rows insertOk settlesBeforeEnd).dbRows = rows ∧
    (processCSV rows insertOk settlesBeforeEnd).dbRows.length = 250 ∧
    (processCSV rows insertOk settlesBeforeEnd).outcome = .resolved := by
  have hsizes : (insertBatches ([] : List α) rows).map List.length
      = [100, 100, 50] := by
    have := insertBatches_sizes rows [] (by simp)
    rw [this, h250, show ([] : List α).length + 250 = 250 from by simp]
    decide
  have hflat : (insertBatches ([] : List α) rows).flatten = rows := by
    simpa using insertBatches_flatten rows []
  have hdb : (processCSV rows insertOk settlesBeforeEnd).dbRows = rows := by
    have hfilter : ((insertBatches ([] : List α) rows).enum.filter
        fun p => insertOk p.1) = (insertBatches ([] : List α) rows).enum :=
      List.filter_eq_self.mpr fun a _ => hok a.1
    simp [processCSV, hfilter, List.enum_map_snd, hflat]
  refine ⟨hsizes, hflat, hdb, by rw [hdb, h250], ?_⟩
  simp [processCSV, hok]

/-- C3 witness: the rows 0..249 are inserted as three batches of sizes 100,
100 and 50, all 250 land in the table unchanged, and the run resolves. -/
theorem processCSV_batches_250_witness :
    (processCSV (List.range 250) (fun _ => true) fun _ => false).insertCalls.map
        List.length = [100, 100, 50] ∧
    (processCSV (List.range 250) (fun _ => true) fun _ => false).insertCalls.flatten
        = List.range 250 ∧
    (processCSV (List.range 250) (fun _ => true) fun _ => false).dbRows
        = List.range 250 ∧
    (processCSV (List.range 250) (fun _ => true) fun _ => false).dbRows.length
        = 250 ∧
    (processCSV (List.range 250) (fun _ => true) fun _ => false).outcome
        = .resolved :=
  processCSV_batches_250 (List.range 250) (fun _ => true) (fun _ => false)
    (by simp) fun _ => rfl

/-- A page on which every selector comes back empty: no company name,
founded, description or team-size element, and zero founder/job blocks. -/
def emptyPage : Page :=
  { companyNameText := ""
    foundedText := ""
    descriptionText := ""
    teamSizeText := ""
    founderBlocks := []
    jobBlocks := [] }

/-! ## Claim theorems for challenge 2 -/

/-- C1: on a CSV whose data rows all decode (their column counts match the
header row), `parseCSV` yields exactly one (name, url) pair per data row,
in file order, and when every company fetch succeeds `processCompanyList`
writes an array with exactly one `CompanyData` per input row whose position
i is the profile scraped from the company of row i. -/
theorem processCompanyList_preserves_order (headers : List String)
    (rows : List (List String)) (g : Option String → Page) (w : WorldA)
    (hrows : ∀ r ∈ rows, r.length = headers.length) :
    parseCSV (.ok (headers :: rows))
        = .ok (rows.map fun r => toCompany (headers.zip r)) ∧
    (rows.map fun r => toCompany (headers.zip r)).length = rows.length ∧
    processCompanyList (.ok (headers :: rows)) (fun u => .ok (g u)) w
        = (.ok (), WorldA.mk
            (some ((rows.map fun r => toCompany (headers.zip r)).map
              fun c => requestHandler (g c.url)))) ∧
    ((rows.map fun r => toCompany (headers.zip r)).map
        fun c => requestHandler (g c.url)).length = rows.length := by
  have hparse : parseCSV (.ok (headers :: rows))
      = .ok (rows.map fun r => toCompany (headers.zip r)) := by
    have hle : ∀ r ∈ rows, r.length ≤ headers.length :=
      fun r hr => (hrows r hr).le
    have hpad : (rows.map fun r => toCompany (headers.zip (padRow r headers.length)))
        = rows.map fun r => toCompany (headers.zip r) := by
      refine List.map_congr_left fun r hr => ?_
      rw [show padRow r headers.length = r from by simp [padRow, hrows r hr]]
    simp [parseCSV, parseRows_ok headers rows hle, hpad]
  refine ⟨hparse, by simp, ?_, by simp⟩
  have hall : promiseAll ((rows.map fun r => toCompany (headers.zip r)).map
      fun c => scrapeCompanyPage (fun u => .ok (g u)) c.url)
      = .ok ((rows.map fun r => toCompany (headers.zip r)).map
          fun c => requestHandler (g c.url)) := by
    simpa [scrapeCompanyPage] using
      promiseAll_map_ok (rows.map fun r => toCompany (headers.zip r))
        fun c => requestHandler (g c.url)
  simp only [List.map_map] at hall
  simp [processCompanyList, hparse, hall]

/-- C1 witness: two rows under the expected headers and an always-succeeding
fetch produce the two pairs in file order and an output array of length 2
whose entries are the profiles of the two companies, in input order. -/
theorem processCompanyList_preserves_order_witness :
    parseCSV (.ok [["Company Name", "YC URL"], ["Acme", "u1"], ["Beta", "u2"]])
        = .ok ([["Acme", "u1"], ["Beta", "u2"]].map fun r =>
            toCompany (["Company Name", "YC URL"].zip r)) ∧
    ([["Acme", "u1"], ["Beta", "u2"]].map fun r =>
        toCompany (["Company Name", "YC URL"].zip r)).length = 2 ∧
    processCompanyList
        (.ok [["Company Name", "YC URL"], ["Acme", "u1"], ["Beta", "u2"]])
        (fun _ => .ok emptyPage) { outFile := none }
        = (.ok (), WorldA.mk
            (some (([["Acme", "u1"], ["Beta", "u2"]].map fun r =>
              toCompany (["Company Name", "YC URL"].zip r)).map
                fun _ => requestHandler emptyPage))) ∧
    (([["Acme", "u1"], ["Beta", "u2"]].map fun r =>
        toCompany (["Company Name", "YC URL"].zip r)).map
          fun _ => requestHandler emptyPage).length = 2 :=
  processCompanyList_preserves_order ["Company Name", "YC URL"]
    [["Acme", "u1"], ["Beta", "u2"]] (fun _ => emptyPage)
    { outFile := none } (by decide)

/-- C6: if the fetch of any single company rejects, `processCompanyList`
rejects as a whole and the world is unchanged: `writeToFile` is not
reached, so no output file is written and a previous run's file stays as
it was. -/
theorem processCompanyList_aborts_on_failure
    (file : Except Unit (List (List String)))
    (fetchPage : Option String → Except Unit Page) (w : WorldA)
    (companies : List Company) (c : Company)
    (hp : parseCSV file = .ok companies) (hc : c ∈ companies)
    (hf : fetchPage c.url = .error ()) :
    processCompanyList file fetchPage w = (.error .scrapeErr, w) := by
  have hmem : (.error () : Except Unit CompanyData)
      ∈ companies.map fun x => scrapeCompanyPage fetchPage x.url := by
    refine List.mem_map.mpr ⟨c, hc, ?_⟩
    simp [scrapeCompanyPage, hf]
  simp [processCompanyList, hp, promiseAll_error_of_mem _ hmem]

/-- C6 witness: with one company whose fetch rejects, the pipeline rejects
and the stale output file of a previous run stays in place. -/
theorem processCompanyList_aborts_on_failure_witness :
    processCompanyList (.ok [["Company Name", "YC URL"], ["Acme", "u1"]])
        (fun _ => .error ()) { outFile := some [] }
        = (.error .scrapeErr, { outFile := some [] }) :=
  processCompanyList_aborts_on_failure
    (.ok [["Company Name", "YC URL"], ["Acme", "u1"]]) (fun _ => .error ())
    { outFile := some [] } [{ name := some "Acme", url := some "u1" }]
    { name := some "Acme", url := some "u1" } rfl (by decide) rfl

/-- C7: the absence of any target element never fails the extraction: the
scrape of a fetched page always succeeds with the extracted profile, a
missing scalar element (selector text empty) yields "N/A" for name, founded
and description, a missing or unparsable team-size text yields 0, and a
page with zero founder and job blocks yields empty founder and job lists. -/
theorem requestHandler_defaults (p : Page) (url : Option String) :
    scrapeCompanyPage (fun _ => .ok p) url = .ok (requestHandler p) ∧
    (p.companyNameText = "" → (requestHandler p).name = "N/A") ∧
    (p.foundedText = "" → (requestHandler p).founded = "N/A") ∧
    (p.descriptionText = "" → (requestHandler p).description = "N/A") ∧
    (parseIntJS p.teamSizeText = none → (requestHandler p).teamSize = 0) ∧
    (p.founderBlocks = [] → (requestHandler p).founders = []) ∧
    (p.jobBlocks = [] → (requestHandler p).jobs = []) := by
  have htrim : jsTrim "" = "" := by decide
  refine ⟨rfl, ?_, ?_, ?_, ?_, ?_, ?_⟩
  · intro h; simp [requestHandler, h, jsOrString, htrim]
  · intro h; simp [requestHandler, h, jsOrString, htrim]
  · intro h; simp [requestHandler, h, jsOrString, htrim]
  · intro h; simp [requestHandler, h, jsOrInt]
  · intro h; simp [requestHandler, h]
  · intro h; simp [requestHandler, h]

/-- C7 witness: on the page with every element missing the extraction
succeeds and every field of the profile is the documented default. -/
theorem requestHandler_defaults_witness :
    scrapeCompanyPage (fun _ => .ok emptyPage) (some "u")
        = .ok (requestHandler emptyPage) ∧
    (requestHandler emptyPage).name = "N/A" ∧
    (requestHandler emptyPage).founded = "N/A" ∧
    (requestHandler emptyPage).description = "N/A" ∧
    (requestHandler emptyPage).teamSize = 0 ∧
    (requestHandler emptyPage).founders = [] ∧
    (requestHandler emptyPage).jobs = [] := by
  have h := requestHandler_defaults emptyPage (some "u")
  exact ⟨h.1, h.2.1 rfl, h.2.2.1 rfl, h.2.2.2.1 rfl,
    h.2.2.2.2.1 (by decide), h.2.2.2.2.2.1 rfl, h.2.2.2.2.2.2 rfl⟩

/-- A page identical to the empty page except that the team-size element
shows a negative number. -/
def negativeTeamSizePage : Page :=
  { emptyPage with teamSizeText := "-5" }

/-- C8 counterexample: `parseCSV` does not validate the header names.  A
file whose header row is ["Foo", "Bar"] decodes its data rows against
those headers, so the run succeeds (no parse error) and yields a
`CompanyRef` whose name and url are both undefined — refuting that a row
failing to decode against the expected header set ("Company Name",
"YC URL") produces a parse error and never yields a `CompanyRef`. -/
theorem parseCSV_foreign_headers :
    parseCSV (.ok [["Foo", "Bar"], ["a", "b"]])
      = .ok [{ name := none, url := none }] := by
  rfl

/-- C8 amended: `parseCSV` fails with an IO error if the file cannot be
opened, and with a parse error when a data row has more columns than the
file's own header row; a row with at most that many columns is decoded
against the file's header row (not against a fixed expected header set),
with missing trailing fields read as empty strings, so every such row
yields a pair, with `undefined` fields when the expected headers are
absent. -/
theorem parseCSV_error_handling (file : Except Unit (List (List String))) :
    (file = .error () → parseCSV file = .error .ioErr) ∧
    (∀ headers rows, file = .ok (headers :: rows) →
      (∀ r ∈ rows, r.length ≤ headers.length) →
      parseCSV file
        = .ok (rows.map fun r => toCompany (headers.zip (padRow r headers.length)))) ∧
    (∀ headers pre bad post, file = .ok (headers :: (pre ++ bad :: post)) →
      (∀ r ∈ pre, r.length ≤ headers.length) →
      headers.length < bad.length →
      parseCSV file = .error .parseErr) := by
  refine ⟨?_, ?_, ?_⟩
  · rintro rfl; rfl
  · rintro headers rows rfl h
    simp [parseCSV, parseRows_ok headers rows h]
  · rintro headers pre bad post rfl hpre hbad
    simp [parseCSV, parseRows_error headers pre bad post hpre hbad]

/-- C8 amended witness: an unopenable file gives the IO error, a row with
fewer columns than the header row is accepted with its missing field read
as the empty string, and a row with more columns than the header row gives
the parse error. -/
theorem parseCSV_error_handling_witness :
    parseCSV (.error ()) = .error .ioErr ∧
    parseCSV (.ok [["Company Name", "YC URL"], ["Acme"]])
      = .ok [{ name := some "Acme", url := some "" }] ∧
    parseCSV (.ok [["Company Name", "YC URL"], ["Acme", "u1", "extra"]])
      = .error .parseErr :=
  ⟨(parseCSV_error_handling (.error ())).1 rfl,
   ((parseCSV_error_handling
      (.ok [["Company Name", "YC URL"], ["Acme"]])).2.1
      ["Company Name", "YC URL"] [["Acme"]] rfl (by decide)).trans
      (congrArg Except.ok (by decide)),
   (parseCSV_error_handling
      (.ok [["Company Name", "YC URL"], ["Acme", "u1", "extra"]])).2.2
      ["Company Name", "YC URL"] [] ["Acme", "u1", "extra"] [] rfl
      (by simp) (by decide)⟩

/-- C9 counterexample: a successfully fetched page whose team-size element
reads "-5" is processed without error, but `parseInt("-5", 10) || 0`
evaluates to -5, so the resulting profile's teamSize is negative —
refuting that teamSize is always a non-negative integer. -/
theorem requestHandler_teamSize_negative :
    scrapeCompanyPage (fun _ => .ok negativeTeamSizePage) (some "u")
        = .ok (requestHandler negativeTeamSizePage) ∧
    (requestHandler negativeTeamSizePage).teamSize = -5 ∧
    ¬ 0 ≤ (requestHandler negativeTeamSizePage).teamSize := by
  refine ⟨rfl, ?_, ?_⟩ <;> decide

theorem jsOrInt_natCast_nonneg (o : Option Nat) :
    0 ≤ jsOrInt (o.map fun n => (n : Int)) 0 := by
  cases o with
  | none => simp [jsOrInt]
  | some n =>
      by_cases h : (n : Int) = 0 <;> simp [jsOrInt, h]

/-- C9 amended: teamSize is 0 whenever the team-size text is missing or
unparsable (`parseInt` gives NaN), and it is a non-negative integer
whenever the trimmed team-size text does not begin with a minus sign; a
page displaying a negative number is the only way to get a negative
teamSize. -/
theorem requestHandler_teamSize_nonneg (p : Page) :
    (parseIntJS p.teamSizeText = none → (requestHandler p).teamSize = 0) ∧
    ((trimChars p.teamSizeText.toList).head? ≠ some '-' →
      0 ≤ (requestHandler p).teamSize) := by
  constructor
  · intro h
    simp [requestHandler, h, jsOrInt]
  · intro h
    show 0 ≤ jsOrInt (parseIntChars (trimChars p.teamSizeText.toList)) 0
    cases hcs : trimChars p.teamSizeText.toList with
    | nil => simp [parseIntChars, jsOrInt]
    | cons c rest =>
        rw [hcs] at h
        have hc : ¬ c = '-' := by
          intro hceq
          exact h (by simp [hceq])
        by_cases hplus : c = '+'
        · have heq : parseIntChars (c :: rest)
              = (digitsValue rest).map fun n => (n : Int) := by
            simp [parseIntChars, hc, hplus]
          rw [heq]
          exact jsOrInt_natCast_nonneg _
        · have heq : parseIntChars (c :: rest)
              = (digitsValue (c :: rest)).map fun n => (n : Int) := by
            simp [parseIntChars, hc, hplus]
          rw [heq]
          exact jsOrInt_natCast_nonneg _

/-- C9 amended witness: the empty team-size text is unparsable, so the
profile's teamSize is the default 0, which is non-negative. -/
theorem requestHandler_teamSize_nonneg_witness :
    (requestHandler emptyPage).teamSize = 0 ∧
    0 ≤ (requestHandler emptyPage).teamSize :=
  ⟨(requestHandler_teamSize_nonneg emptyPage).1 (by decide),
   (requestHandler_teamSize_nonneg emptyPage).2 (by decide)⟩
